import Mathlib

/-!
Verification development for the advisory trading decision pipeline of the
BackTrader-Agent repository.

The definitions below are a shallow embedding of the decision logic of
`src/examples/advisory_trading_strategy_v2.py` (class
`AdvisoryTradingStrategyV2`), `src/examples/advisory_trading_strategy_v3.py`
(class `AdvisoryTradingStrategyV3`) and
`src/llm_advisory/bt_advisory.py` (class `BacktraderLLMAdvisory`).
Python floats are embedded as rationals, Python dict-shaped signals as the
`Sig` structure, and the mutable strategy attributes
(`self.order`, the broker position size, `self.entry_price`,
`self.highest_price`) as the explicit state record `StratState`.
-/

/-- The `signal` field of a signal dict: the source code uses the strings
`"buy"`, `"sell"`, `"none"` (all strategy versions) and additionally
`"trend_strong"`, `"trend_weak"` (v3 ADX signal, see
`AdvisoryTradingStrategyV3._generate_adx_signal`). -/
inductive SigKind
  | buy
  | sell
  | trendStrong
  | trendWeak
  | noSignal
  deriving DecidableEq, Repr

/-- The `final_signal` produced by `_combine_signals`: one of the strings
`"buy"`, `"sell"`, `"none"`. -/
inductive Consensus
  | buy
  | sell
  | cnone
  deriving DecidableEq, Repr

/-- Which risk rule fired inside `_should_sell_due_to_risk`; the Python
function logs the reason (止损 / 止盈 / 移动止损) and returns `True`. -/
inductive RiskReason
  | stopLoss
  | takeProfit
  | trailingStop
  deriving DecidableEq, Repr

/-- The order placed (or not) by one invocation of `next`.  A risk-forced
close (`self.sell` after `_should_sell_due_to_risk`) is tagged with its
reason; a consensus close is the `self.sell` in the `elif signal == "sell"`
branch; `hold` is every path of `next` that places no order. -/
inductive TradeAct
  | openLong
  | openShort
  | closeRisk (r : RiskReason)
  | closeConsensus
  | hold
  deriving DecidableEq, Repr

/-- One signal dict `{"signal": ..., "confidence": ..., "type": ...}` as
produced by the `_generate_*_signal` helpers. -/
structure Sig where
  signal : SigKind
  confidence : ℚ
  sigType : String
  deriving DecidableEq, Repr

/-- The loop accumulator of `_combine_signals`:
`buy_votes`, `sell_votes`, `total_buy_confidence`, `total_sell_confidence`. -/
structure Agg where
  buyVotes : ℕ
  sellVotes : ℕ
  buyConf : ℚ
  sellConf : ℚ
  deriving DecidableEq, Repr

/-- Accumulator start values (all zero). -/
def Agg.init : Agg := ⟨0, 0, 0, 0⟩

/-- Result dict of `_combine_signals` (the `reasoning` string is
informational only and is not embedded). -/
structure CombRes where
  sig : Consensus
  confidence : ℚ
  deriving DecidableEq, Repr

/-- Embedding of `weights.get(signal["type"], default)`: association-list lookup with a
default weight. -/
def lookupWeight (w : List (String × ℚ)) (dflt : ℚ) (ty : String) : ℚ :=
  match w with
  | [] => dflt
  | p :: rest => if p.1 = ty then p.2 else lookupWeight rest dflt ty

/-- One iteration of the `for signal in signals` loop of
`AdvisoryTradingStrategyV2._combine_signals` (default weight `0.1`).
The `else` branch of the Python code catches every string other than
`"buy"` and `"sell"`. -/
def aggStep (w : List (String × ℚ)) (a : Agg) (sg : Sig) : Agg :=
  let wt := lookupWeight w (1/10) sg.sigType
  match sg.signal with
  | SigKind.buy =>
      { a with buyVotes := a.buyVotes + 1, buyConf := a.buyConf + sg.confidence * wt }
  | SigKind.sell =>
      { a with sellVotes := a.sellVotes + 1, sellConf := a.sellConf + sg.confidence * wt }
  | _ => a

/-- Embedding of `AdvisoryTradingStrategyV2._combine_signals` (lines 317-355).
`AdvisoryTradingStrategyOptimized._combine_signals` (lines 221-258 of
`advisory_trading_strategy_optimized.py`) is the identical algorithm, so this
one definition covers both call sites; the confidence threshold is the
`signal_confidence_threshold` strategy parameter, passed here as `th`. -/
def combineSignals (w : List (String × ℚ)) (th : ℚ) (sigs : List Sig) : CombRes :=
  let a := sigs.foldl (aggStep w) Agg.init
  if 1 ≤ a.buyVotes ∧ a.buyConf > th ∧ a.buyConf > a.sellConf then
    ⟨Consensus.buy, a.buyConf⟩
  else if 1 ≤ a.sellVotes ∧ a.sellConf > th ∧ a.sellConf > a.buyConf then
    ⟨Consensus.sell, a.sellConf⟩
  else
    ⟨Consensus.cnone, max a.buyConf a.sellConf⟩

/-- Strategy parameters (the `params` tuple of `AdvisoryTradingStrategyV2`)
together with the per-call weight table handed to `_combine_signals`. -/
structure StratParams where
  tradeSize : ℤ
  signalConfidenceThreshold : ℚ
  maxPositionFrac : ℚ
  minTradeValue : ℚ
  stopLossPct : ℚ
  takeProfitPct : ℚ
  trailingStopPct : ℚ
  allowShortSelling : Bool
  weights : List (String × ℚ)
  deriving DecidableEq, Repr

/-- The mutable strategy attributes read and written by `next` /
`notify_order`: `self.order` (is an order pending), the broker position size
(`self.position.size`; `self.position` is truthy iff the size is nonzero),
`self.entry_price` and `self.highest_price`. -/
structure StratState where
  orderPending : Bool
  posSize : ℤ
  entryPrice : ℚ
  highestPrice : ℚ
  deriving DecidableEq, Repr

/-- Per-step external inputs of `next`: the close price
`self.datas[0].close[0]`, the broker cash, and the signal dicts collected by
`_generate_advisory_signal` (signal generation from indicator values is an
external input to the decision logic). -/
structure StepInput where
  price : ℚ
  cash : ℚ
  signals : List Sig
  deriving DecidableEq, Repr

/-- Python `int(q)` on a nonnegative-or-negative rational: truncation toward
zero. -/
def pyInt (q : ℚ) : ℤ :=
  if q < 0 then ⌈q⌉ else ⌊q⌋

/-- The `self.highest_price` update step
(`if current_price > self.highest_price: self.highest_price = current_price`,
lines 145-146 of `advisory_trading_strategy_v2.py`). -/
def updHigh (h p : ℚ) : ℚ :=
  if p > h then p else h

/-- Embedding of `AdvisoryTradingStrategyV2._should_sell_due_to_risk` (lines 129-153;
`AdvisoryTradingStrategyV3._should_sell_due_to_risk`, lines 122-146, is the
same code).  Returns which rule fired (if any) together with the value of
`self.highest_price` after the call; the Python function mutates
`self.highest_price` in place and reports the reason through its log line. -/
def riskCheck (pm : StratParams) (e h p : ℚ) (hasPos : Bool) :
    Option RiskReason × ℚ :=
  if !hasPos then (none, h)
  else if p ≤ e * (1 - pm.stopLossPct) then (some RiskReason.stopLoss, h)
  else if p ≥ e * (1 + pm.takeProfitPct) then (some RiskReason.takeProfit, h)
  else
    let h2 := updHigh h p
    if p ≤ h2 * (1 - pm.trailingStopPct) then (some RiskReason.trailingStop, h2)
    else (none, h2)

/-- Embedding of `AdvisoryTradingStrategyV2._can_trade` (lines 357-366): a pending order
blocks trading; otherwise the sizing gate
`max_shares >= min_shares` with
`min_shares = max(1, int(min_trade_value / price))` and
`max_shares = int(cash * max_position_ratio / price)`. -/
def canTrade (pm : StratParams) (s : StratState) (inp : StepInput) : Bool :=
  if s.orderPending then false
  else
    let minShares := max 1 (pyInt (pm.minTradeValue / inp.price))
    let maxShares := pyInt (inp.cash * pm.maxPositionFrac / inp.price)
    decide (minShares ≤ maxShares)

/-- The order-placement block of `AdvisoryTradingStrategyV2.next`
(lines 394-416): `buy` opens a long only from a flat position and only when
`min(trade_size, max_shares) > 0`; `sell` closes an existing position, or
opens a short when flat and `allow_short_selling` is set (again only for a
positive size); every other combination places no order. -/
def executeDecision (pm : StratParams) (c : Consensus) (posSize maxShares : ℤ) :
    TradeAct :=
  match c with
  | Consensus.buy =>
      if posSize = 0 then
        if 0 < min pm.tradeSize maxShares then TradeAct.openLong else TradeAct.hold
      else TradeAct.hold
  | Consensus.sell =>
      if posSize ≠ 0 then TradeAct.closeConsensus
      else if pm.allowShortSelling then
        if 0 < min pm.tradeSize maxShares then TradeAct.openShort else TradeAct.hold
      else TradeAct.hold
  | Consensus.cnone => TradeAct.hold

/-- The consensus-driven tail of `next` (signal generation result already
combined): placing any order sets `self.order` (a pending order). -/
def consensusStep (pm : StratParams) (s : StratState) (inp : StepInput) :
    TradeAct × StratState :=
  let res := combineSignals pm.weights pm.signalConfidenceThreshold inp.signals
  let maxShares := pyInt (inp.cash * pm.maxPositionFrac / inp.price)
  let a := executeDecision pm res.sig s.posSize maxShares
  if a = TradeAct.hold then (a, s) else (a, { s with orderPending := true })

/-- Embedding of `AdvisoryTradingStrategyV2.next` (lines 368-416): the `_can_trade` gate,
then the risk exit (`if self.position and self._should_sell_due_to_risk`;
the short-circuit means `riskCheck` runs only with a position, hence the
`true` argument), then the consensus decision.  Selling for risk sets
`self.order`. -/
def nextStep (pm : StratParams) (s : StratState) (inp : StepInput) :
    TradeAct × StratState :=
  if canTrade pm s inp = true then
    if s.posSize ≠ 0 then
      match riskCheck pm s.entryPrice s.highestPrice inp.price true with
      | (some r, h2) =>
          (TradeAct.closeRisk r, { s with highestPrice := h2, orderPending := true })
      | (none, h2) => consensusStep pm { s with highestPrice := h2 } inp
    else consensusStep pm s inp
  else (TradeAct.hold, s)

/-- One iteration of the `for signal in signals` loop of
`AdvisoryTradingStrategyV3._combine_signals` (lines 372-424, default weight
`0.05`): `"buy"` and `"trend_strong"` count as buy evidence, `"trend_weak"`
multiplies both accumulated confidences by `0.8` in place, everything else is
neutral. -/
def aggStepV3 (w : List (String × ℚ)) (a : Agg) (sg : Sig) : Agg :=
  let wt := lookupWeight w (1/20) sg.sigType
  match sg.signal with
  | SigKind.buy =>
      { a with buyVotes := a.buyVotes + 1, buyConf := a.buyConf + sg.confidence * wt }
  | SigKind.trendStrong =>
      { a with buyVotes := a.buyVotes + 1, buyConf := a.buyConf + sg.confidence * wt }
  | SigKind.sell =>
      { a with sellVotes := a.sellVotes + 1, sellConf := a.sellConf + sg.confidence * wt }
  | SigKind.trendWeak =>
      { a with buyConf := a.buyConf * (4/5), sellConf := a.sellConf * (4/5) }
  | SigKind.noSignal => a

/-- Embedding of `AdvisoryTradingStrategyV3._combine_signals`: the loop above, then the
volume-confirmation discount (`*0.7` on both scores when
`_check_volume_confirmation` is false, passed here as `volumeOk`), then the
decision rule with `min_votes = 2` and margin `1.2`. -/
def combineSignalsV3 (w : List (String × ℚ)) (th : ℚ) (volumeOk : Bool)
    (sigs : List Sig) : CombRes :=
  let a0 := sigs.foldl (aggStepV3 w) Agg.init
  let a := if volumeOk then a0
    else { a0 with buyConf := a0.buyConf * (7/10), sellConf := a0.sellConf * (7/10) }
  if 2 ≤ a.buyVotes ∧ a.buyConf > th ∧ a.buyConf > a.sellConf * (6/5) then
    ⟨Consensus.buy, a.buyConf⟩
  else if 2 ≤ a.sellVotes ∧ a.sellConf > th ∧ a.sellConf > a.buyConf * (6/5) then
    ⟨Consensus.sell, a.sellConf⟩
  else
    ⟨Consensus.cnone, max a.buyConf a.sellConf⟩

/-- A signal counted as buy evidence by the v3 loop. -/
def isBuyishV3 (sg : Sig) : Bool :=
  match sg.signal with
  | SigKind.buy => true
  | SigKind.trendStrong => true
  | _ => false

/-- A signal counted as sell evidence by the v3 loop. -/
def isSellishV3 (sg : Sig) : Bool :=
  match sg.signal with
  | SigKind.sell => true
  | _ => false

/-- Weighted buy contribution of a single signal in the v3 loop. -/
def buyContribV3 (w : List (String × ℚ)) (sg : Sig) : ℚ :=
  if isBuyishV3 sg then sg.confidence * lookupWeight w (1/20) sg.sigType else 0

/-- Weighted sell contribution of a single signal in the v3 loop. -/
def sellContribV3 (w : List (String × ℚ)) (sg : Sig) : ℚ :=
  if isSellishV3 sg then sg.confidence * lookupWeight w (1/20) sg.sigType else 0

/-- The sequence of `self.highest_price` values across consecutive steps of
an open Long position, obtained by iterating the update of lines 145-146 of
`advisory_trading_strategy_v2.py` over the per-step price inputs. -/
def extremesFrom (h : ℚ) : List ℚ → List ℚ
  | [] => []
  | p :: ps =>
      let h2 := updHigh h p
      h2 :: extremesFrom h2 ps

/-- The trailing-stop trigger price
`trailing_stop_price = self.highest_price * (1 - self.params.trailing_stop_pct)`
(line 148 of `advisory_trading_strategy_v2.py`). -/
def trailPrice (h tr : ℚ) : ℚ := h * (1 - tr)

/-- Order status values distinguished by `notify_order`. -/
inductive OrderStatus
  | submitted
  | accepted
  | completed
  | canceled
  | margin
  | rejected
  deriving DecidableEq, Repr

/-- Embedding of `AdvisoryTradingStrategyV2.notify_order` (lines 97-127): its effect on
the strategy state.  Submitted/accepted orders return early; a completed buy
records `self.entry_price = self.highest_price = order.executed.price`; every
other completed or failed status only clears `self.order`.  In particular no
branch resets `entry_price` or `highest_price`.
`AdvisoryTradingStrategyV3.notify_order` (lines 92-120) is the same logic. -/
def notifyOrder (s : StratState) (isBuy : Bool) (execPrice : ℚ)
    (status : OrderStatus) : StratState :=
  match status with
  | OrderStatus.submitted => s
  | OrderStatus.accepted => s
  | OrderStatus.completed =>
      if isBuy then
        { s with entryPrice := execPrice, highestPrice := execPrice,
                 orderPending := false }
      else { s with orderPending := false }
  | _ => { s with orderPending := false }

/-- Lower-casing of a Python string (`reasoning.lower()`). -/
def lowerStr (s : String) : String := s.map Char.toLower

/-- Python's `kw in s` substring test, via `splitOn`: the keyword occurs in
`s` iff splitting on it produces more than one part. -/
def strContains (s kw : String) : Bool := (s.splitOn kw).length != 1

/-- The dict returned by `BacktraderLLMAdvisory.get_advice`
(`src/llm_advisory/bt_advisory.py`, lines 40-111).  The Python dict carries a
`confidence` key on some paths only; `confidence = none` embeds a dict with
no such key. -/
structure Advice where
  signal : String
  confidence : Option ℚ
  reasoning : String
  deriving DecidableEq, Repr

/-- Embedding of `BacktraderLLMAdvisory.get_advice`.  Its input is embedded as the
outcome of the advisor boundary: `none` when the advisor name lookup fails,
`some (Except.error e)` when `advisor.update_state` (or anything else inside
the `try` block) raises an exception with message `e`, and
`some (Except.ok m)` on success, where `m` is the content of the last message
of the updated state (`Option.none` when `updated_state.messages` is empty).
The success path reproduces the keyword parsing of lines 87-106. -/
def getAdvice (advisorResult : Option (Except String (Option String)))
    (name : String) : Advice :=
  match advisorResult with
  | none => ⟨"none", none, "Advisor " ++ name ++ " not found"⟩
  | some (Except.error e) => ⟨"none", none, "Error getting advice: " ++ e⟩
  | some (Except.ok none) => ⟨"none", none, "No response from advisor"⟩
  | some (Except.ok (some reasoning)) =>
      let r := lowerStr reasoning
      if ["bullish", "buy", "上涨", "看涨"].any (fun kw => strContains r kw) then
        ⟨"bullish", some (7/10), reasoning⟩
      else if ["bearish", "sell", "下跌", "看跌"].any (fun kw => strContains r kw) then
        ⟨"bearish", some (7/10), reasoning⟩
      else if ["neutral", "hold", "中性"].any (fun kw => strContains r kw) then
        ⟨"neutral", some (1/2), reasoning⟩
      else ⟨"none", some 0, reasoning⟩

lemma le_updHigh (h p : ℚ) : h ≤ updHigh h p := by
  unfold updHigh
  split
  · exact le_of_lt (by assumption)
  · exact le_refl h

lemma updHigh_of_lt {h p : ℚ} (hlt : h < p) : updHigh h p = p := by
  unfold updHigh
  exact if_pos hlt

lemma extremes_chain_le (h : ℚ) (ps : List ℚ) :
    List.Chain' (· ≤ ·) (h :: extremesFrom h ps) := by
  induction ps generalizing h with
  | nil => simp [extremesFrom]
  | cons p ps ih =>
      simp only [extremesFrom]
      rw [List.chain'_cons]
      exact ⟨le_updHigh h p, ih (updHigh h p)⟩

lemma trail_chain_lt (h : ℚ) (ps : List ℚ) (tr : ℚ) (htr : 0 < 1 - tr)
    (hchain : List.Chain' (· < ·) (h :: ps)) :
    List.Chain' (· < ·) ((h :: extremesFrom h ps).map (fun x => trailPrice x tr)) := by
  induction ps generalizing h with
  | nil => simp [extremesFrom]
  | cons p ps ih =>
      rw [List.chain'_cons] at hchain
      simp only [extremesFrom, updHigh_of_lt hchain.1, List.map, List.chain'_cons]
      refine ⟨?_, ?_⟩
      · exact mul_lt_mul_of_pos_right hchain.1 htr
      · have := ih p hchain.2
        simpa [List.map] using this

/-- C6: for a Long position the running `highest_price` never decreases
across consecutive steps (proved for every price input, in particular
non-decreasing ones), and for a strictly increasing price series the
trailing-stop trigger price `highest_price * (1 - trailing_stop_pct)`
strictly increases at each step (for any `trailing_stop_pct < 1`). -/
theorem extreme_monotone_trail_strict (h : ℚ) (ps : List ℚ) (tr : ℚ) :
    (List.Chain' (· ≤ ·) (h :: ps) →
      List.Chain' (· ≤ ·) (h :: extremesFrom h ps)) ∧
    (List.Chain' (· < ·) (h :: ps) → 0 < 1 - tr →
      List.Chain' (· < ·) ((h :: extremesFrom h ps).map (fun x => trailPrice x tr))) :=
  ⟨fun _ => extremes_chain_le h ps, fun hc htr => trail_chain_lt h ps tr htr hc⟩

/-- Witness for C6 at the concrete series 100, 101, 102 with
`trailing_stop_pct = 0.025`. -/
theorem extreme_monotone_trail_strict_witness :
    List.Chain' (· ≤ ·) ((100:ℚ) :: [101, 102]) ∧
    (0:ℚ) < 1 - 1/40 ∧
    List.Chain' (· ≤ ·) ((100:ℚ) :: extremesFrom 100 [101, 102]) ∧
    List.Chain' (· < ·)
      (((100:ℚ) :: extremesFrom 100 [101, 102]).map (fun x => trailPrice x (1/40))) :=
  ⟨by norm_num [List.chain'_cons], by norm_num,
   (extreme_monotone_trail_strict 100 [101, 102] (1/40)).1
     (by norm_num [List.chain'_cons]),
   (extreme_monotone_trail_strict 100 [101, 102] (1/40)).2
     (by norm_num [List.chain'_cons]) (by norm_num)⟩

/-- C2: the risk checks run in the fixed order stop-loss, take-profit,
trailing-stop.  Whenever the stop-loss comparison fails and the take-profit
comparison holds, the check returns the take-profit close and the
trailing-stop block — including the `highest_price` update — is not reached:
the returned `highest_price` is the old one. -/
theorem risk_check_order_take_profit (pm : StratParams) (e h p : ℚ)
    (hsl : ¬ p ≤ e * (1 - pm.stopLossPct))
    (htp : p ≥ e * (1 + pm.takeProfitPct)) :
    riskCheck pm e h p true = (some RiskReason.takeProfit, h) := by
  simp [riskCheck, hsl, htp]

/-- Witness for C2: Long position, `entry_price = 100`,
`take_profit_pct = 0.12`, price 113 (with `stop_loss_pct = 0.04`,
`highest_price` still 100): Close fires with reason take-profit and
`highest_price` is left at 100 even though 113 exceeds it. -/
theorem risk_check_order_take_profit_witness :
    ¬ (113:ℚ) ≤ 100 * (1 - (⟨100, 7/25, 4/5, 1000, 1/25, 3/25, 1/40, false, []⟩ :
        StratParams).stopLossPct) ∧
    (113:ℚ) ≥ 100 * (1 + (⟨100, 7/25, 4/5, 1000, 1/25, 3/25, 1/40, false, []⟩ :
        StratParams).takeProfitPct) ∧
    riskCheck ⟨100, 7/25, 4/5, 1000, 1/25, 3/25, 1/40, false, []⟩ 100 100 113 true =
      (some RiskReason.takeProfit, 100) :=
  ⟨by norm_num, by norm_num,
   risk_check_order_take_profit ⟨100, 7/25, 4/5, 1000, 1/25, 3/25, 1/40, false, []⟩
     100 100 113 (by norm_num) (by norm_num)⟩

/-- C4: whenever the accumulated weighted scores tie exactly, the combine
returns consensus none (both branches need a strict `>`); and for an empty
signal list it returns consensus none with confidence 0. -/
theorem combine_tie_and_empty_none (w : List (String × ℚ)) (th : ℚ)
    (sigs : List Sig)
    (htie : (sigs.foldl (aggStep w) Agg.init).buyConf =
            (sigs.foldl (aggStep w) Agg.init).sellConf) :
    (combineSignals w th sigs).sig = Consensus.cnone ∧
      combineSignals w th [] = ⟨Consensus.cnone, 0⟩ := by
  constructor
  · unfold combineSignals
    set a := sigs.foldl (aggStep w) Agg.init with ha
    have h1 : ¬(1 ≤ a.buyVotes ∧ a.buyConf > th ∧ a.buyConf > a.sellConf) := by
      rintro ⟨-, -, hgt⟩
      rw [htie] at hgt
      exact lt_irrefl _ hgt
    have h2 : ¬(1 ≤ a.sellVotes ∧ a.sellConf > th ∧ a.sellConf > a.buyConf) := by
      rintro ⟨-, -, hgt⟩
      rw [← htie] at hgt
      exact lt_irrefl _ hgt
    rw [if_neg h1, if_neg h2]
  · simp [combineSignals, Agg.init]

/-- Witness for C4: two equally weighted opposite signals of confidence 0.5
tie exactly and yield consensus none; the empty list yields none with
confidence 0. -/
theorem combine_tie_and_empty_none_witness :
    (([⟨SigKind.buy, 1/2, "trend"⟩, ⟨SigKind.sell, 1/2, "trend"⟩] :
        List Sig).foldl (aggStep [("trend", 1/4)]) Agg.init).buyConf =
      (([⟨SigKind.buy, 1/2, "trend"⟩, ⟨SigKind.sell, 1/2, "trend"⟩] :
        List Sig).foldl (aggStep [("trend", 1/4)]) Agg.init).sellConf ∧
    (combineSignals [("trend", 1/4)] (1/10)
      [⟨SigKind.buy, 1/2, "trend"⟩, ⟨SigKind.sell, 1/2, "trend"⟩]).sig =
        Consensus.cnone ∧
    combineSignals [("trend", 1/4)] (1/10) [] = ⟨Consensus.cnone, 0⟩ := by
  have htie : (([⟨SigKind.buy, 1/2, "trend"⟩, ⟨SigKind.sell, 1/2, "trend"⟩] :
      List Sig).foldl (aggStep [("trend", 1/4)]) Agg.init).buyConf =
      (([⟨SigKind.buy, 1/2, "trend"⟩, ⟨SigKind.sell, 1/2, "trend"⟩] :
        List Sig).foldl (aggStep [("trend", 1/4)]) Agg.init).sellConf := by
    simp only [List.foldl, aggStep, lookupWeight, Agg.init]
  exact ⟨htie, (combine_tie_and_empty_none [("trend", 1/4)] (1/10) _ htie).1,
    (combine_tie_and_empty_none [("trend", 1/4)] (1/10) [] (by simp [Agg.init])).2⟩

/-- C7 (amended): a completed buy order sets `entry_price` and
`highest_price` to the fill price; a completed sell order leaves both
untouched (they are never cleared); and the stale values are never read while
flat, because `_should_sell_due_to_risk` returns immediately when there is no
position. -/
theorem entry_extreme_lifecycle (s : StratState) (p : ℚ) :
    notifyOrder s true p OrderStatus.completed =
      { s with entryPrice := p, highestPrice := p, orderPending := false } ∧
    (notifyOrder s false p OrderStatus.completed).entryPrice = s.entryPrice ∧
    (notifyOrder s false p OrderStatus.completed).highestPrice = s.highestPrice ∧
    (∀ pm e h q, riskCheck pm e h q false = (none, h)) :=
  ⟨rfl, rfl, rfl, fun pm e h q => rfl⟩

/-- Counterexample for C7: after a completed sell (a position close) on a
state with `entry_price = 100`, `highest_price = 110`, both values are
retained, not cleared (the reset value at `__init__` is `0.0`). -/
theorem entry_not_cleared_on_close :
    (notifyOrder ⟨false, 100, 100, 110⟩ false 105 OrderStatus.completed).entryPrice
        = 100 ∧
    (notifyOrder ⟨false, 100, 100, 110⟩ false 105 OrderStatus.completed).highestPrice
        = 110 ∧
    (100:ℚ) ≠ 0 :=
  ⟨rfl, rfl, by norm_num⟩

/-- C8: evaluation of `get_advice` at a failing advisor.  The exception is
caught and one dict is returned, with signal `"none"` — but the dict carries
no `confidence` key at all (embedded as `confidence = none`), although the
function docstring promises a dictionary containing signal, confidence and
reasoning. -/
theorem getAdvice_error_no_confidence :
    getAdvice (some (Except.error "boom")) "trend" =
      ⟨"none", none, "Error getting advice: boom"⟩ := rfl

/-- C3: with weights trend 0.4, rsi 0.3, macd 0.3, signals Bullish 0.8 /
Bullish 0.6 / Bearish 0.5, threshold 0.3 (the code hard-wires
`min_votes = 1` and margin 1.0), the combine yields consensus buy with
confidence 0.5, and from a Flat state with sufficient capital the step
places an open-long order. -/
theorem scenario2_buy_consensus_openLong :
    combineSignals [("trend", 2/5), ("rsi", 3/10), ("macd", 3/10)] (3/10)
      [⟨SigKind.buy, 4/5, "trend"⟩, ⟨SigKind.buy, 3/5, "rsi"⟩,
       ⟨SigKind.sell, 1/2, "macd"⟩] = ⟨Consensus.buy, 1/2⟩ ∧
    (nextStep
      ⟨100, 3/10, 4/5, 1000, 1/25, 3/25, 1/40, false,
        [("trend", 2/5), ("rsi", 3/10), ("macd", 3/10)]⟩
      ⟨false, 0, 0, 0⟩
      ⟨10, 10000,
        [⟨SigKind.buy, 4/5, "trend"⟩, ⟨SigKind.buy, 3/5, "rsi"⟩,
         ⟨SigKind.sell, 1/2, "macd"⟩]⟩).1 = TradeAct.openLong := by
  have hcomb : combineSignals [("trend", 2/5), ("rsi", 3/10), ("macd", 3/10)] (3/10)
      [⟨SigKind.buy, 4/5, "trend"⟩, ⟨SigKind.buy, 3/5, "rsi"⟩,
       ⟨SigKind.sell, 1/2, "macd"⟩] = ⟨Consensus.buy, 1/2⟩ := by
    simp only [combineSignals, aggStep, lookupWeight, Agg.init, List.foldl]
    simp
    norm_num
  refine ⟨hcomb, ?_⟩
  simp only [nextStep, canTrade, pyInt, consensusStep, executeDecision, hcomb]
  norm_num
  rfl

/-- C1 (amended): the risk exit has unconditional priority over the
aggregator — whenever the `_can_trade` gate passes, a position whose price
is at or beyond the stop-loss threshold produces the risk-forced close for
every signal list (and hence every consensus) — but the `_can_trade` gate
itself runs first and can prevent the risk exit. -/
theorem risk_exit_beats_any_consensus (pm : StratParams) (s : StratState)
    (inp : StepInput) (hct : canTrade pm s inp = true) (hpos : s.posSize ≠ 0)
    (hsl : inp.price ≤ s.entryPrice * (1 - pm.stopLossPct)) :
    (nextStep pm s inp).1 = TradeAct.closeRisk RiskReason.stopLoss := by
  have hrc : riskCheck pm s.entryPrice s.highestPrice inp.price true =
      (some RiskReason.stopLoss, s.highestPrice) := by
    simp [riskCheck, hsl]
  simp [nextStep, hct, hpos, hrc]

/-- Witness for C1: Long position at entry 100, price 94 (beyond the 4%
stop-loss), a unanimously bearish signal set, and ample cash: the step
closes for risk. -/
theorem risk_exit_beats_any_consensus_witness :
    canTrade ⟨100, 7/25, 4/5, 1000, 1/25, 3/25, 1/40, false, [("trend", 2/5)]⟩
      ⟨false, 100, 100, 100⟩
      ⟨94, 10000, [⟨SigKind.sell, 9/10, "trend"⟩, ⟨SigKind.sell, 9/10, "rsi"⟩]⟩
      = true ∧
    ((94:ℚ) ≤ 100 * (1 - 1/25)) ∧
    (nextStep ⟨100, 7/25, 4/5, 1000, 1/25, 3/25, 1/40, false, [("trend", 2/5)]⟩
      ⟨false, 100, 100, 100⟩
      ⟨94, 10000, [⟨SigKind.sell, 9/10, "trend"⟩, ⟨SigKind.sell, 9/10, "rsi"⟩]⟩).1
      = TradeAct.closeRisk RiskReason.stopLoss := by
  have hct : canTrade ⟨100, 7/25, 4/5, 1000, 1/25, 3/25, 1/40, false, [("trend", 2/5)]⟩
      ⟨false, 100, 100, 100⟩
      ⟨94, 10000, [⟨SigKind.sell, 9/10, "trend"⟩, ⟨SigKind.sell, 9/10, "rsi"⟩]⟩
      = true := by
    simp only [canTrade, pyInt]
    norm_num
  exact ⟨hct, by norm_num,
    risk_exit_beats_any_consensus _ _ _ hct (by norm_num) (by norm_num)⟩

/-- Counterexample for C1 as stated: the same stop-loss breach with the same
bearish signals, but only 100 units of cash.  `_can_trade` fails
(`max_shares = 0 < 10 = min_shares`), `next` returns before the risk check,
and the step emits no close: a per-step gate other than the aggregator does
prevent the risk exit. -/
theorem canTrade_gate_blocks_risk_exit :
    ((94:ℚ) ≤ 100 * (1 - 1/25)) ∧
    canTrade ⟨100, 7/25, 4/5, 1000, 1/25, 3/25, 1/40, false, [("trend", 2/5)]⟩
      ⟨false, 100, 100, 100⟩
      ⟨94, 100, [⟨SigKind.sell, 9/10, "trend"⟩, ⟨SigKind.sell, 9/10, "rsi"⟩]⟩
      = false ∧
    nextStep ⟨100, 7/25, 4/5, 1000, 1/25, 3/25, 1/40, false, [("trend", 2/5)]⟩
      ⟨false, 100, 100, 100⟩
      ⟨94, 100, [⟨SigKind.sell, 9/10, "trend"⟩, ⟨SigKind.sell, 9/10, "rsi"⟩]⟩
      = (TradeAct.hold, ⟨false, 100, 100, 100⟩) := by
  have hct : canTrade ⟨100, 7/25, 4/5, 1000, 1/25, 3/25, 1/40, false, [("trend", 2/5)]⟩
      ⟨false, 100, 100, 100⟩
      ⟨94, 100, [⟨SigKind.sell, 9/10, "trend"⟩, ⟨SigKind.sell, 9/10, "rsi"⟩]⟩
      = false := by
    simp only [canTrade, pyInt]
    norm_num
  refine ⟨by norm_num, hct, ?_⟩
  unfold nextStep
  rw [hct]
  simp

/-- C5: the consensus-driven position decision follows the transition table.
With the risk overlay not firing: Flat + Sell with short-selling disabled
degrades to Hold with no order placed and an unchanged state; Buy while
already in a position yields Hold; Sell while in a position yields the
consensus Close; a None consensus always yields Hold. -/
theorem transition_table (pm : StratParams)
    (hshort : pm.allowShortSelling = false) :
    (∀ s inp, canTrade pm s inp = true → s.posSize = 0 →
      (combineSignals pm.weights pm.signalConfidenceThreshold inp.signals).sig =
        Consensus.sell →
      nextStep pm s inp = (TradeAct.hold, s)) ∧
    (∀ s inp, canTrade pm s inp = true → s.posSize ≠ 0 →
      (riskCheck pm s.entryPrice s.highestPrice inp.price true).1 = none →
      (combineSignals pm.weights pm.signalConfidenceThreshold inp.signals).sig =
        Consensus.buy →
      (nextStep pm s inp).1 = TradeAct.hold) ∧
    (∀ s inp, canTrade pm s inp = true → s.posSize ≠ 0 →
      (riskCheck pm s.entryPrice s.highestPrice inp.price true).1 = none →
      (combineSignals pm.weights pm.signalConfidenceThreshold inp.signals).sig =
        Consensus.sell →
      (nextStep pm s inp).1 = TradeAct.closeConsensus) ∧
    (∀ s inp, canTrade pm s inp = true →
      (s.posSize ≠ 0 →
        (riskCheck pm s.entryPrice s.highestPrice inp.price true).1 = none) →
      (combineSignals pm.weights pm.signalConfidenceThreshold inp.signals).sig =
        Consensus.cnone →
      (nextStep pm s inp).1 = TradeAct.hold) := by
  refine ⟨?_, ?_, ?_, ?_⟩
  · intro s inp hct hflat hsell
    unfold nextStep
    rw [hct]
    simp [hflat, consensusStep, hsell, executeDecision, hshort]
  · intro s inp hct hpos hrisk hbuy
    rcases hre : riskCheck pm s.entryPrice s.highestPrice inp.price true with ⟨o, h2⟩
    rw [hre] at hrisk
    simp at hrisk
    subst hrisk
    unfold nextStep
    rw [hct]
    simp [hpos, hre, consensusStep, hbuy, executeDecision]
  · intro s inp hct hpos hrisk hsell
    rcases hre : riskCheck pm s.entryPrice s.highestPrice inp.price true with ⟨o, h2⟩
    rw [hre] at hrisk
    simp at hrisk
    subst hrisk
    unfold nextStep
    rw [hct]
    simp [hpos, hre, consensusStep, hsell, executeDecision]
  · intro s inp hct hriskimp hnone
    by_cases hpos : s.posSize = 0
    · unfold nextStep
      rw [hct]
      simp [hpos, consensusStep, hnone, executeDecision]
    · have hrisk := hriskimp hpos
      rcases hre : riskCheck pm s.entryPrice s.highestPrice inp.price true with ⟨o, h2⟩
      rw [hre] at hrisk
      simp at hrisk
      subst hrisk
      unfold nextStep
      rw [hct]
      simp [hpos, hre, consensusStep, hnone, executeDecision]

/-- Witness for C5: the four table cells at concrete inputs (entry 100,
highest 105, price 104, no risk trigger; one bearish or bullish signal of
confidence 0.9 and weight 0.4 produces the wanted consensus, the empty list
produces None). -/
theorem transition_table_witness :
    nextStep ⟨100, 7/25, 4/5, 1000, 1/25, 3/25, 1/40, false, [("trend", 2/5)]⟩
      ⟨false, 0, 0, 0⟩ ⟨104, 10000, [⟨SigKind.sell, 9/10, "trend"⟩]⟩ =
      (TradeAct.hold, ⟨false, 0, 0, 0⟩) ∧
    (nextStep ⟨100, 7/25, 4/5, 1000, 1/25, 3/25, 1/40, false, [("trend", 2/5)]⟩
      ⟨false, 100, 100, 105⟩ ⟨104, 10000, [⟨SigKind.buy, 9/10, "trend"⟩]⟩).1 =
      TradeAct.hold ∧
    (nextStep ⟨100, 7/25, 4/5, 1000, 1/25, 3/25, 1/40, false, [("trend", 2/5)]⟩
      ⟨false, 100, 100, 105⟩ ⟨104, 10000, [⟨SigKind.sell, 9/10, "trend"⟩]⟩).1 =
      TradeAct.closeConsensus ∧
    (nextStep ⟨100, 7/25, 4/5, 1000, 1/25, 3/25, 1/40, false, [("trend", 2/5)]⟩
      ⟨false, 100, 100, 105⟩ ⟨104, 10000, []⟩).1 = TradeAct.hold := by
  have h := transition_table
    ⟨100, 7/25, 4/5, 1000, 1/25, 3/25, 1/40, false, [("trend", 2/5)]⟩ rfl
  refine ⟨h.1 _ _ ?_ rfl ?_, h.2.1 _ _ ?_ (by norm_num) ?_ ?_,
    h.2.2.1 _ _ ?_ (by norm_num) ?_ ?_, h.2.2.2 _ _ ?_ (fun _ => ?_) ?_⟩
  · simp only [canTrade, pyInt]
    norm_num
  · simp only [combineSignals, aggStep, lookupWeight, Agg.init, List.foldl]
    norm_num
  · simp only [canTrade, pyInt]
    norm_num
  · simp only [riskCheck, updHigh]
    norm_num
  · simp only [combineSignals, aggStep, lookupWeight, Agg.init, List.foldl]
    norm_num
  · simp only [canTrade, pyInt]
    norm_num
  · simp only [riskCheck, updHigh]
    norm_num
  · simp only [combineSignals, aggStep, lookupWeight, Agg.init, List.foldl]
    norm_num
  · simp only [canTrade, pyInt]
    norm_num
  · simp only [riskCheck, updHigh]
    norm_num
  · simp only [combineSignals, aggStep, lookupWeight, Agg.init, List.foldl]
    norm_num

lemma updHigh_idem (h p : ℚ) : updHigh (updHigh h p) p = updHigh h p := by
  unfold updHigh
  by_cases hp : p > h
  · simp [hp]
  · simp [hp]

lemma riskCheck_none_idem (pm : StratParams) (e h p : ℚ)
    (hn : (riskCheck pm e h p true).1 = none) :
    riskCheck pm e (riskCheck pm e h p true).2 p true =
      (none, (riskCheck pm e h p true).2) := by
  unfold riskCheck at *
  by_cases hsl : p ≤ e * (1 - pm.stopLossPct)
  · simp [hsl] at hn
  · by_cases htp : p ≥ e * (1 + pm.takeProfitPct)
    · simp [hsl, htp] at hn
    · by_cases htr : p ≤ updHigh h p * (1 - pm.trailingStopPct)
      · simp [hsl, htp, htr] at hn
      · have htr2 : ¬ p ≤ updHigh (updHigh h p) p * (1 - pm.trailingStopPct) := by
          rw [updHigh_idem]
          exact htr
        simp [hsl, htp, htr, htr2, updHigh_idem]

lemma consensusStep_hold (pm : StratParams) (s : StratState) (inp : StepInput)
    (hh : (consensusStep pm s inp).1 = TradeAct.hold) :
    consensusStep pm s inp = (TradeAct.hold, s) := by
  by_cases ha : executeDecision pm
      (combineSignals pm.weights pm.signalConfidenceThreshold inp.signals).sig
      s.posSize (pyInt (inp.cash * pm.maxPositionFrac / inp.price)) = TradeAct.hold
  · simp [consensusStep, ha]
  · simp [consensusStep, ha] at hh

/-- C9 (amended): a step that places no order (returns Hold) is idempotent —
re-invoking `next` on the resulting state with the same inputs returns Hold
again and changes nothing, even though the risk check may have updated
`highest_price` internally during the first call.  (When an order is placed,
the pending-order gate in `_can_trade` suppresses any further action, so
repeated invocation is not literally identical.) -/
theorem nextStep_hold_idempotent (pm : StratParams) (s : StratState)
    (inp : StepInput) (hh : (nextStep pm s inp).1 = TradeAct.hold) :
    nextStep pm (nextStep pm s inp).2 inp = nextStep pm s inp := by
  by_cases hct : canTrade pm s inp = true
  · by_cases hpos : s.posSize = 0
    · have h1 : nextStep pm s inp = consensusStep pm s inp := by
        unfold nextStep
        rw [hct]
        simp [hpos]
      rw [h1] at hh
      have h2 := consensusStep_hold pm s inp hh
      rw [h1, h2]
      show nextStep pm s inp = (TradeAct.hold, s)
      rw [h1, h2]
    · rcases hre : riskCheck pm s.entryPrice s.highestPrice inp.price true
        with ⟨o, h2v⟩
      cases o with
      | some r =>
          have hcl : (nextStep pm s inp).1 = TradeAct.closeRisk r := by
            unfold nextStep
            rw [hct]
            simp [hpos, hre]
          rw [hcl] at hh
          exact absurd hh (by simp)
      | none =>
          have h1 : nextStep pm s inp =
              consensusStep pm { s with highestPrice := h2v } inp := by
            unfold nextStep
            rw [hct]
            simp [hpos, hre]
          rw [h1] at hh
          have h2 := consensusStep_hold pm { s with highestPrice := h2v } inp hh
          rw [h1, h2]
          show nextStep pm { s with highestPrice := h2v } inp =
            (TradeAct.hold, { s with highestPrice := h2v })
          have hct2 : canTrade pm { s with highestPrice := h2v } inp = true := hct
          have hpos2 : ({ s with highestPrice := h2v } : StratState).posSize ≠ 0 :=
            hpos
          have hidem := riskCheck_none_idem pm s.entryPrice s.highestPrice
            inp.price (by rw [hre])
          rw [hre] at hidem
          unfold nextStep
          rw [hct2]
          simp only [if_pos rfl]
          simp [hpos2, hidem, h2]
  · have hcf : canTrade pm s inp = false := by
      cases hcc : canTrade pm s inp
      · rfl
      · exact absurd hcc hct
    have h1 : nextStep pm s inp = (TradeAct.hold, s) := by
      unfold nextStep
      rw [hcf]
      simp
    rw [h1]
    show nextStep pm s inp = (TradeAct.hold, s)
    exact h1

/-- Witness for C9 (amended): a flat state with an empty signal list holds,
and the repeated invocation returns the identical result. -/
theorem nextStep_hold_idempotent_witness :
    (nextStep ⟨100, 7/25, 4/5, 1000, 1/25, 3/25, 1/40, false, [("trend", 2/5)]⟩
      ⟨false, 0, 0, 0⟩ ⟨104, 10000, []⟩).1 = TradeAct.hold ∧
    nextStep ⟨100, 7/25, 4/5, 1000, 1/25, 3/25, 1/40, false, [("trend", 2/5)]⟩
      (nextStep ⟨100, 7/25, 4/5, 1000, 1/25, 3/25, 1/40, false, [("trend", 2/5)]⟩
        ⟨false, 0, 0, 0⟩ ⟨104, 10000, []⟩).2 ⟨104, 10000, []⟩ =
      nextStep ⟨100, 7/25, 4/5, 1000, 1/25, 3/25, 1/40, false, [("trend", 2/5)]⟩
        ⟨false, 0, 0, 0⟩ ⟨104, 10000, []⟩ := by
  have hh : (nextStep ⟨100, 7/25, 4/5, 1000, 1/25, 3/25, 1/40, false, [("trend", 2/5)]⟩
      ⟨false, 0, 0, 0⟩ ⟨104, 10000, []⟩).1 = TradeAct.hold := by
    simp only [nextStep, canTrade, pyInt, consensusStep, executeDecision,
      combineSignals, Agg.init, List.foldl]
    norm_num
  exact ⟨hh, nextStep_hold_idempotent _ _ _ hh⟩

/-- Counterexample for C9 as stated: a Long position at entry 100, price 94
(stop-loss breach), empty signal set.  The first invocation emits the
risk-forced Close; the engine leaves every Position field (size, entry,
extreme) untouched, so the second invocation runs on an identical Position
with identical signals — yet it emits Hold, because the pending order set by
the first call blocks `_can_trade`. -/
theorem repeated_step_after_close_differs :
    (nextStep ⟨100, 7/25, 4/5, 1000, 1/25, 3/25, 1/40, false, [("trend", 2/5)]⟩
      ⟨false, 100, 100, 100⟩ ⟨94, 10000, []⟩).1 =
      TradeAct.closeRisk RiskReason.stopLoss ∧
    (nextStep ⟨100, 7/25, 4/5, 1000, 1/25, 3/25, 1/40, false, [("trend", 2/5)]⟩
      ⟨false, 100, 100, 100⟩ ⟨94, 10000, []⟩).2.posSize = 100 ∧
    (nextStep ⟨100, 7/25, 4/5, 1000, 1/25, 3/25, 1/40, false, [("trend", 2/5)]⟩
      ⟨false, 100, 100, 100⟩ ⟨94, 10000, []⟩).2.entryPrice = 100 ∧
    (nextStep ⟨100, 7/25, 4/5, 1000, 1/25, 3/25, 1/40, false, [("trend", 2/5)]⟩
      ⟨false, 100, 100, 100⟩ ⟨94, 10000, []⟩).2.highestPrice = 100 ∧
    (nextStep ⟨100, 7/25, 4/5, 1000, 1/25, 3/25, 1/40, false, [("trend", 2/5)]⟩
      (nextStep ⟨100, 7/25, 4/5, 1000, 1/25, 3/25, 1/40, false, [("trend", 2/5)]⟩
        ⟨false, 100, 100, 100⟩ ⟨94, 10000, []⟩).2 ⟨94, 10000, []⟩).1 =
      TradeAct.hold := by
  have h1 : nextStep ⟨100, 7/25, 4/5, 1000, 1/25, 3/25, 1/40, false, [("trend", 2/5)]⟩
      ⟨false, 100, 100, 100⟩ ⟨94, 10000, []⟩ =
      (TradeAct.closeRisk RiskReason.stopLoss, ⟨true, 100, 100, 100⟩) := by
    simp only [nextStep, canTrade, pyInt, riskCheck, updHigh]
    norm_num
  have h2 : (nextStep ⟨100, 7/25, 4/5, 1000, 1/25, 3/25, 1/40, false, [("trend", 2/5)]⟩
      (⟨true, 100, 100, 100⟩ : StratState) ⟨94, 10000, []⟩).1 = TradeAct.hold := by
    unfold nextStep
    have hcf : canTrade ⟨100, 7/25, 4/5, 1000, 1/25, 3/25, 1/40, false, [("trend", 2/5)]⟩
        (⟨true, 100, 100, 100⟩ : StratState) ⟨94, 10000, []⟩ = false := rfl
    rw [hcf]
    simp
  rw [h1]
  exact ⟨rfl, rfl, rfl, rfl, h2⟩

lemma aggFoldV3_no_weak (w : List (String × ℚ)) (l : List Sig) :
    ∀ a : Agg, (∀ sg ∈ l, sg.signal ≠ SigKind.trendWeak) →
      l.foldl (aggStepV3 w) a =
        ⟨a.buyVotes + l.countP isBuyishV3, a.sellVotes + l.countP isSellishV3,
         a.buyConf + (l.map (buyContribV3 w)).sum,
         a.sellConf + (l.map (sellContribV3 w)).sum⟩ := by
  induction l with
  | nil => intro a h; simp
  | cons sg l ih =>
      intro a h
      have hsg : sg.signal ≠ SigKind.trendWeak := h sg (by simp)
      have hl : ∀ x ∈ l, x.signal ≠ SigKind.trendWeak := fun x hx => h x (by simp [hx])
      rw [List.foldl_cons, ih _ hl]
      cases hc : sg.signal with
      | buy =>
          simp only [aggStepV3, hc, List.countP_cons, List.map_cons, List.sum_cons,
            isBuyishV3, isSellishV3, buyContribV3, sellContribV3, Agg.mk.injEq]
          refine ⟨by simp; omega, by simp, by simp [isBuyishV3, hc]; ring, by
            simp [isSellishV3, hc]⟩
      | trendStrong =>
          simp only [aggStepV3, hc, List.countP_cons, List.map_cons, List.sum_cons,
            Agg.mk.injEq]
          refine ⟨by simp [isBuyishV3, hc]; omega, by simp [isSellishV3, hc],
            by simp [buyContribV3, isBuyishV3, hc]; ring,
            by simp [sellContribV3, isSellishV3, hc]⟩
      | sell =>
          simp only [aggStepV3, hc, List.countP_cons, List.map_cons, List.sum_cons,
            Agg.mk.injEq]
          refine ⟨by simp [isBuyishV3, hc], by simp [isSellishV3, hc]; omega,
            by simp [buyContribV3, isBuyishV3, hc],
            by simp [sellContribV3, isSellishV3, hc]; ring⟩
      | trendWeak => exact absurd hc hsg
      | noSignal =>
          simp only [aggStepV3, hc, List.countP_cons, List.map_cons, List.sum_cons,
            Agg.mk.injEq]
          refine ⟨by simp [isBuyishV3, hc], by simp [isSellishV3, hc],
            by simp [buyContribV3, isBuyishV3, hc],
            by simp [sellContribV3, isSellishV3, hc]⟩

/-- C10 (amended): the v3 combine is permutation-invariant on signal lists
that contain no `trend_weak` signal — buy/sell votes are counts and the
scores are sums, all order-independent.  (With a `trend_weak` signal present
the mid-loop `*0.8` discount applies only to the scores accumulated so far,
and the result can depend on the position of the ADX signal in the list.) -/
theorem combineV3_perm_invariant (w : List (String × ℚ)) (th : ℚ)
    (volumeOk : Bool) (l1 l2 : List Sig) (hperm : List.Perm l1 l2)
    (hnw : ∀ sg ∈ l1, sg.signal ≠ SigKind.trendWeak) :
    combineSignalsV3 w th volumeOk l1 = combineSignalsV3 w th volumeOk l2 := by
  have hnw2 : ∀ sg ∈ l2, sg.signal ≠ SigKind.trendWeak := fun sg hx =>
    hnw sg (hperm.mem_iff.mpr hx)
  unfold combineSignalsV3
  rw [aggFoldV3_no_weak w l1 Agg.init hnw, aggFoldV3_no_weak w l2 Agg.init hnw2,
    hperm.countP_eq isBuyishV3, hperm.countP_eq isSellishV3,
    (hperm.map (buyContribV3 w)).sum_eq, (hperm.map (sellContribV3 w)).sum_eq]

/-- Witness for C10 (amended): swapping two weak-free signals leaves the v3
combine result unchanged. -/
theorem combineV3_perm_invariant_witness :
    combineSignalsV3 [("trend", 1/4)] (3/10) true
      [⟨SigKind.sell, 9/10, "trend"⟩, ⟨SigKind.buy, 4/5, "trend"⟩] =
    combineSignalsV3 [("trend", 1/4)] (3/10) true
      [⟨SigKind.buy, 4/5, "trend"⟩, ⟨SigKind.sell, 9/10, "trend"⟩] :=
  combineV3_perm_invariant [("trend", 1/4)] (3/10) true _ _
    (List.Perm.swap (⟨SigKind.buy, 4/5, "trend"⟩ : Sig)
      (⟨SigKind.sell, 9/10, "trend"⟩ : Sig) [])
    (by
      intro sg hsg
      simp only [List.mem_cons, List.not_mem_nil, or_false] at hsg
      rcases hsg with rfl | rfl
      · simp
      · simp)

/-- Counterexample for C10 as stated: two permutations of the same v3 signal
list (one `trend_weak` ADX signal and two buy signals) produce different
consensus directions — weak-first leaves the buy score at 0.335 > 0.3
(consensus buy), weak-last discounts it to 0.268 < 0.3 (consensus none). -/
theorem combineV3_order_dependent :
    List.Perm
      [⟨SigKind.trendWeak, 1/10, "adx"⟩, ⟨SigKind.buy, 4/5, "trend"⟩,
       ⟨SigKind.buy, 9/10, "rsi"⟩]
      ([⟨SigKind.buy, 4/5, "trend"⟩, ⟨SigKind.buy, 9/10, "rsi"⟩,
       ⟨SigKind.trendWeak, 1/10, "adx"⟩] : List Sig) ∧
    (combineSignalsV3 [("trend", 1/4), ("rsi", 3/20), ("adx", 3/50)] (3/10) true
      [⟨SigKind.trendWeak, 1/10, "adx"⟩, ⟨SigKind.buy, 4/5, "trend"⟩,
       ⟨SigKind.buy, 9/10, "rsi"⟩]).sig = Consensus.buy ∧
    (combineSignalsV3 [("trend", 1/4), ("rsi", 3/20), ("adx", 3/50)] (3/10) true
      [⟨SigKind.buy, 4/5, "trend"⟩, ⟨SigKind.buy, 9/10, "rsi"⟩,
       ⟨SigKind.trendWeak, 1/10, "adx"⟩]).sig = Consensus.cnone := by
  refine ⟨?_, ?_, ?_⟩
  · exact (List.Perm.swap (⟨SigKind.buy, 4/5, "trend"⟩ : Sig)
      (⟨SigKind.trendWeak, 1/10, "adx"⟩ : Sig)
      [(⟨SigKind.buy, 9/10, "rsi"⟩ : Sig)]).trans
      ((List.Perm.swap (⟨SigKind.buy, 9/10, "rsi"⟩ : Sig)
        (⟨SigKind.trendWeak, 1/10, "adx"⟩ : Sig) []).cons
        (⟨SigKind.buy, 4/5, "trend"⟩ : Sig))
  · simp only [combineSignalsV3, aggStepV3, lookupWeight, Agg.init, List.foldl]
    simp
    norm_num
  · simp only [combineSignalsV3, aggStepV3, lookupWeight, Agg.init, List.foldl]
    simp
    norm_num
